import Mathlib

/-!
Verification of the validation-and-reporting pipeline of `src/data_processor.py`.

The pipeline works on an in-memory pandas DataFrame loaded from a CSV file.
A DataFrame is column-oriented: an ordered list of named columns, each column a
list of cells, all columns of equal length.  We embed it as `Table` below.

Cells are `Option Val`: `none` models a null/missing cell (pandas `NaN`),
`some v` a scalar value.  Numbers are modelled as rationals; comparisons of a
missing cell with a number follow IEEE `NaN` semantics (always false), which is
what pandas evaluates for `NaN > c`.  Mixed string/number comparisons raise in
Python and are outside the fragment the claims quantify over (the claims only
concern numeric or missing entries of the `value` column).

`validate_data` reads a file (which may fail), checks the table and calls
`sys.exit(1)` on any exception; the read step is embedded as an
`Except String Table` input and the exception flow as the `Except` monad,
with the outcome type `VOutcome` recording either process exit or a pass
together with the WARNING diagnostics emitted through `log_activity`.

`process_data` and `generate_report` sample `datetime.now()`; the sampled
timestamp is passed explicitly as a `String` argument.
-/

/-- A scalar cell value: a string or a number (rationals embed the numeric
values the claims range over). -/
inductive Val where
  | str (s : String)
  | num (q : ℚ)
deriving DecidableEq, Repr

/-- A cell of the table: `none` is a null/missing cell. -/
abbrev Cell := Option Val

/-- A pandas DataFrame, column-oriented: the declared row count and the ordered
list of named columns. -/
structure Table where
  nRows : Nat
  cols : List (String × List Cell)
deriving DecidableEq, Repr

namespace Table

/-- Column names in table order (`df.columns`). -/
def colNames (t : Table) : List String := t.cols.map Prod.fst

/-- Number of columns (`len(df.columns)`). -/
def nCols (t : Table) : Nat := t.cols.length

/-- Whether a column with this exact name exists (`name in df.columns`). -/
def hasCol (t : Table) (name : String) : Bool := t.cols.any (fun p => p.1 = name)

/-- The cells of the named column (`df[name]`); `[]` if the column is absent. -/
def column (t : Table) (name : String) : List Cell :=
  ((t.cols.find? (fun p => p.1 = name)).map Prod.snd).getD []

/-- Well-formedness: every column has exactly `nRows` cells and column names
are distinct (a DataFrame loaded from a CSV header has unique names). -/
def WF (t : Table) : Prop :=
  (∀ p ∈ t.cols, p.2.length = t.nRows) ∧ t.colNames.Nodup

instance (t : Table) : Decidable t.WF := by
  unfold WF; infer_instance

/-- Column assignment `df[name] = vals`: overwrites the column in place when
the name exists, otherwise appends a new column at the end. -/
def setCol (t : Table) (name : String) (vals : List Cell) : Table :=
  if t.hasCol name then
    ⟨t.nRows, t.cols.map (fun p => if p.1 = name then (name, vals) else p)⟩
  else
    ⟨t.nRows, t.cols ++ [(name, vals)]⟩

/-- Count of null cells over the whole table (`df.isnull().sum().sum()`). -/
def missingCells (t : Table) : Nat :=
  (t.cols.map (fun p => p.2.count none)).sum

/-- The missing-data fraction `df.isnull().sum().sum() / (len(df) * len(df.columns))`,
computed over the full cell grid. -/
def missingFrac (t : Table) : ℚ :=
  (missingCells t : ℚ) / ((t.nRows : ℚ) * (t.nCols : ℚ))

/-- Pandas `df.empty`: true when either axis has length zero. -/
def isEmptyDF (t : Table) : Bool := t.nRows = 0 ∨ t.nCols = 0

end Table

/-- Count for `Series.duplicated().sum()`: cells that repeat a value already seen in an
earlier position; the first occurrence is not counted. -/
def dupCountAux (seen : List Cell) : List Cell → Nat
  | [] => 0
  | c :: rest => (if c ∈ seen then 1 else 0) + dupCountAux (c :: seen) rest

/-- Duplicate count of a column, `df[col].duplicated().sum()`. -/
def dupCount (l : List Cell) : Nat := dupCountAux [] l

/-- The checks of `validate_data` between the `try`/`except`, on an already
loaded table: emptiness raise, missing-fraction raise, duplicate-id WARNING.
Returns the WARNING diagnostics on success, the raised message on failure. -/
def validateCore (t : Table) : Except String (List String) :=
  if t.isEmptyDF then .error "Data file is empty"
  else if t.missingFrac > 1/10 then .error "Too many missing values"
  else if t.hasCol "id" then
    let d := dupCount (t.column "id")
    if d > 0 then .ok ["Warning: Found " ++ toString d ++ " duplicate IDs"]
    else .ok []
  else .ok []

/-- Outcome of a `validate_data` call: `sys.exit(code)` or return `True`
with the WARNING diagnostics that were logged. -/
inductive VOutcome where
  | exit (code : Nat)
  | passed (warnings : List String)
deriving DecidableEq, Repr

/-- The function `validate_data(file_path)`: the `pd.read_csv` result is the
`Except String Table` input (`.error` = any read/parse exception); every
exception of the `try` block is caught and converted to `sys.exit(1)`. -/
def validate_data (input : Except String Table) : VOutcome :=
  match input with
  | .error _ => .exit 1
  | .ok t =>
    match validateCore t with
    | .error _ => .exit 1
    | .ok w => .passed w

/-- The comparison `x > c` evaluated by the `value_category` lambda: true for a
numeric cell strictly above `c`; false for a missing cell, since `NaN > c` is
false in Python/pandas.  (A string cell would raise in Python; the claims only
range over numeric or missing entries, and we let it compare false here.) -/
def cellGT (c : Cell) (b : ℚ) : Bool :=
  match c with
  | some (.num q) => b < q
  | _ => false

/-- The `value_category` lambda:
`'high' if x > 200 else 'medium' if x > 100 else 'low'`. -/
def categorize (c : Cell) : String :=
  if cellGT c 200 then "high" else if cellGT c 100 then "medium" else "low"

/-- The function `process_data(df)` with the sampled `datetime.now().isoformat()` timestamp
passed explicitly: assigns `processed_date` uniformly, assigns `value_category`
from the `value` column when present, then assigns `row_number = 1..n`. -/
def process_data (t : Table) (ts : String) : Table :=
  let t1 := t.setCol "processed_date" (List.replicate t.nRows (some (.str ts)))
  let t2 :=
    if t1.hasCol "value" then
      t1.setCol "value_category" ((t1.column "value").map (fun c => some (.str (categorize c))))
    else t1
  t2.setCol "row_number" ((List.range t2.nRows).map (fun i : Nat => some (.num ((i : ℚ) + 1))))

/-- Distinct values in order of first appearance. -/
def firstOccs : List Val → List Val
  | [] => []
  | v :: rest => v :: (firstOccs rest).filter (fun w => w ≠ v)

/-- The mapping `Series.value_counts().to_dict()`: the frequency mapping of the non-null
values of a column, as an association list keyed by the distinct observed
values (missing cells are dropped by `value_counts`). -/
def valueCountsList (l : List Cell) : List (Val × Nat) :=
  (firstOccs (l.filterMap id)).map (fun v => (v, l.count (some v)))

/-- The non-missing numeric entries of a column, in order: the entries that the
pandas `mean`/`max`/`min`/`sum` aggregates (which skip `NaN`) range over. -/
def numVals (l : List Cell) : List ℚ :=
  l.filterMap (fun c => match c with | some (.num q) => some q | _ => none)

/-- The report mapping of `generate_report`.  Optional keys are `none` when
their source column is absent; an aggregate that pandas would return as `NaN`
(mean/max/min of a column with no numeric entry) is also modelled as `none`. -/
structure Report where
  total_records : Nat
  processing_date : String
  columns : List String
  status_breakdown : Option (List (Val × Nat))
  active_records : Option Nat
  average_value : Option ℚ
  max_value : Option ℚ
  min_value : Option ℚ
  total_value : Option ℚ
deriving DecidableEq, Repr

/-- The function `generate_report(df)` with the sampled timestamp passed explicitly. -/
def generate_report (t : Table) (ts : String) : Report :=
  let sb : Option (List (Val × Nat)) :=
    if t.hasCol "status" then some (valueCountsList (t.column "status")) else none
  let vs := numVals (t.column "value")
  { total_records := t.nRows
    processing_date := ts
    columns := t.colNames
    status_breakdown := sb
    active_records :=
      sb.map (fun m => (((m.find? (fun p => p.1 = Val.str "active")).map Prod.snd)).getD 0)
    average_value :=
      if t.hasCol "value" then
        if vs.length = 0 then none else some (vs.sum / (vs.length : ℚ))
      else none
    max_value := if t.hasCol "value" then vs.max? else none
    min_value := if t.hasCol "value" then vs.min? else none
    total_value := if t.hasCol "value" then some vs.sum else none }

/-- A 10-row, 2-column table whose 2 missing cells sit in a single column:
full-grid missing fraction exactly 0.10. -/
def tblGrid : Table :=
  ⟨10, [("a", List.replicate 2 none ++ List.replicate 8 (some (.num 1))),
        ("b", List.replicate 10 (some (.num 2)))]⟩

/-- A zero-row table that still declares three columns. -/
def tblEmpty : Table := ⟨0, [("a", []), ("b", []), ("c", [])]⟩

/-- A table with one repeated `id` value. -/
def tblDup : Table := ⟨3, [("id", [some (.num 1), some (.num 1), some (.num 2)])]⟩

/-- A 10-row, 1-column table with 2 missing cells: missing fraction 0.20. -/
def tblTooMissing : Table :=
  ⟨10, [("a", List.replicate 2 none ++ List.replicate 8 (some (.num 1)))]⟩

/-- A table whose `value` column holds the four boundary values. -/
def tblBound : Table :=
  ⟨4, [("value", [some (.num 100), some (.num 101), some (.num 200), some (.num 201)])]⟩

/-- A table whose `value` column has a missing entry. -/
def tblValMiss : Table := ⟨2, [("value", [none, some (.num 150)])]⟩

/-- A table that already carries a `processed_date` column before any
transformation. -/
def tblPre : Table :=
  ⟨1, [("name", [some (.str "alice")]), ("processed_date", [some (.str "stale")])]⟩

/-- A plain two-row table with no derived-column names. -/
def tblTwo : Table := ⟨2, [("x", [some (.num 1), some (.num 2)])]⟩

/-- The five-value table of the spec's reporter example. -/
def tblVal : Table :=
  ⟨5, [("value", [some (.num 100), some (.num 200), some (.num 150),
                  some (.num 300), some (.num 250)])]⟩

/-- The status table of the spec's reporter example. -/
def tblStat : Table :=
  ⟨5, [("status", [some (.str "active"), some (.str "active"), some (.str "inactive"),
                   some (.str "active"), some (.str "pending")])]⟩

section AssocLemmas

variable (name c : String) (vals : List Cell)

/-- Replacing the `name` entries of an association list leaves lookups of any
other key unchanged. -/
theorem find_map_replace_ne (h : c ≠ name) :
    ∀ l : List (String × List Cell),
      (l.map (fun p => if p.1 = name then (name, vals) else p)).find?
          (fun p => p.1 = c)
        = l.find? (fun p => p.1 = c)
  | [] => rfl
  | p :: rest => by
    by_cases hp : p.1 = name
    · have h1 : ¬ ((name : String) = c) := fun hc => h hc.symm
      have h2 : ¬ (p.1 = c) := by rw [hp]; exact h1
      simp only [List.map_cons, if_pos hp]
      rw [List.find?_cons_of_neg _ (by simpa using h1), List.find?_cons_of_neg _ (by simpa using h2)]
      exact find_map_replace_ne h rest
    · simp only [List.map_cons, if_neg hp]
      by_cases hq : p.1 = c
      · rw [List.find?_cons_of_pos _ (by simpa using hq), List.find?_cons_of_pos _ (by simpa using hq)]
      · rw [List.find?_cons_of_neg _ (by simpa using hq), List.find?_cons_of_neg _ (by simpa using hq)]
        exact find_map_replace_ne h rest

/-- Replacing the `name` entries of an association list that contains the key
makes the lookup of `name` return the new entry. -/
theorem find_map_replace_self :
    ∀ l : List (String × List Cell), l.any (fun p => p.1 = name) = true →
      (l.map (fun p => if p.1 = name then (name, vals) else p)).find?
          (fun p => p.1 = name)
        = some (name, vals)
  | p :: rest, hmem => by
    by_cases hp : p.1 = name
    · simp only [List.map_cons, if_pos hp]
      rw [List.find?_cons_of_pos _ (by simp)]
    · simp only [List.map_cons, if_neg hp]
      rw [List.find?_cons_of_neg _ (by simpa using hp)]
      apply find_map_replace_self rest
      simpa [hp] using hmem

/-- A key absent from an association list has no matching entry. -/
theorem find_eq_none_of_not_any :
    ∀ l : List (String × List Cell), l.any (fun p => p.1 = name) = false →
      l.find? (fun p => p.1 = name) = none
  | [], _ => rfl
  | p :: rest, habs => by
    have hp : ¬ (p.1 = name) := by
      intro hp; simp [hp] at habs
    rw [List.find?_cons_of_neg _ (by simpa using hp)]
    apply find_eq_none_of_not_any rest
    simpa [hp] using habs

end AssocLemmas

namespace Table

/-- The missing-fraction threshold test of `validate_data`, restated on
integer cell counts. -/
theorem missingFrac_gt_tenth_iff (t : Table) (h : 0 < t.nRows * t.nCols) :
    t.missingFrac > 1/10 ↔ 10 * t.missingCells > t.nRows * t.nCols := by
  unfold missingFrac
  have hpos : (0:ℚ) < ((t.nRows * t.nCols : ℕ) : ℚ) := by exact_mod_cast h
  rw [Nat.cast_mul] at hpos
  rw [gt_iff_lt, div_lt_div_iff₀ (by norm_num) hpos, gt_iff_lt]
  constructor
  · intro hlt
    have h2 : ((t.nRows * t.nCols : ℕ) : ℚ) < ((10 * t.missingCells : ℕ) : ℚ) := by
      push_cast
      linarith
    exact_mod_cast h2
  · intro hlt
    have h2 : ((t.nRows * t.nCols : ℕ) : ℚ) < ((10 * t.missingCells : ℕ) : ℚ) := by
      exact_mod_cast hlt
    push_cast at h2
    linarith

theorem nRows_setCol (t : Table) (name : String) (vals : List Cell) :
    (t.setCol name vals).nRows = t.nRows := by
  unfold setCol; split <;> rfl

theorem colNames_setCol (t : Table) (name : String) (vals : List Cell) :
    (t.setCol name vals).colNames =
      if t.hasCol name then t.colNames else t.colNames ++ [name] := by
  unfold setCol
  split
  case isTrue hc =>
    simp only [colNames, List.map_map]
    apply List.map_congr_left
    intro p _
    by_cases hp : p.1 = name
    · simp [hp]
    · simp [hp]
  case isFalse hc =>
    simp [colNames]

theorem hasCol_iff_mem_colNames (t : Table) (name : String) :
    t.hasCol name = true ↔ name ∈ t.colNames := by
  unfold hasCol colNames
  rw [List.any_eq_true]
  constructor
  · rintro ⟨p, hp, hpn⟩
    rw [decide_eq_true_eq] at hpn
    exact hpn ▸ List.mem_map_of_mem Prod.fst hp
  · intro hm
    rw [List.mem_map] at hm
    obtain ⟨p, hp, hpn⟩ := hm
    exact ⟨p, hp, by simp [hpn]⟩

theorem column_setCol_ne (t : Table) (name c : String) (vals : List Cell) (h : c ≠ name) :
    (t.setCol name vals).column c = t.column c := by
  unfold setCol column
  split
  · dsimp only
    rw [find_map_replace_ne name c vals h t.cols]
  · dsimp only
    rw [List.find?_append]
    have hnone : List.find? (fun p => decide (p.1 = c)) [(name, vals)] = none := by
      have h1 : ¬ ((name : String) = c) := fun hc => h hc.symm
      simp [List.find?, h1]
    cases hf : t.cols.find? (fun p => decide (p.1 = c)) <;> simp [hf, hnone]

theorem column_setCol_self (t : Table) (name : String) (vals : List Cell) :
    (t.setCol name vals).column name = vals := by
  unfold setCol column
  split
  case isTrue hc =>
    unfold hasCol at hc
    dsimp only
    rw [find_map_replace_self name vals t.cols hc]
    rfl
  case isFalse hc =>
    unfold hasCol at hc
    simp only [Bool.not_eq_true] at hc
    dsimp only
    rw [List.find?_append, find_eq_none_of_not_any name t.cols hc]
    simp [List.find?]

theorem hasCol_setCol (t : Table) (name m : String) (vals : List Cell) :
    (t.setCol name vals).hasCol m = (t.hasCol m || decide (m = name)) := by
  rw [Bool.eq_iff_iff]
  simp only [Bool.or_eq_true, decide_eq_true_eq]
  rw [hasCol_iff_mem_colNames, hasCol_iff_mem_colNames, colNames_setCol]
  split
  case isTrue hc =>
    constructor
    · intro hm; exact Or.inl hm
    · intro hm
      cases hm with
      | inl hmem => exact hmem
      | inr heq =>
        subst heq
        exact (hasCol_iff_mem_colNames t m).mp hc
  case isFalse hc =>
    simp [List.mem_append]

end Table

/-- The outcome `validate_data` exits iff the checks raised. -/
theorem validate_data_exit_iff (t : Table) :
    validate_data (.ok t) = .exit 1 ↔ ∃ e, validateCore t = .error e := by
  unfold validate_data
  cases h : validateCore t <;> simp [h]

/-- The outcome `validate_data` passes with `w` iff the checks returned `w`. -/
theorem validate_data_passed_iff (t : Table) (w : List String) :
    validate_data (.ok t) = .passed w ↔ validateCore t = .ok w := by
  unfold validate_data
  cases h : validateCore t <;> simp [h]

/-- The checks raise exactly on emptiness or an excessive missing fraction. -/
theorem validateCore_error_iff (t : Table) :
    (∃ e, validateCore t = .error e) ↔
      (t.isEmptyDF = true ∨ t.missingFrac > 1/10) := by
  unfold validateCore
  by_cases h1 : t.isEmptyDF = true
  · simp [h1]
  · rw [if_neg h1]
    by_cases h2 : t.missingFrac > 1/10
    · rw [if_pos h2]
      exact iff_of_true ⟨"Too many missing values", rfl⟩ (Or.inr h2)
    · rw [if_neg h2]
      constructor
      · rintro ⟨e, he⟩
        exfalso
        revert he
        split
        · dsimp only
          split <;> simp
        · simp
      · rintro (hc | hc)
        · exact absurd hc h1
        · exact absurd hc h2

/-- When the table is non-empty and the missing fraction is within the
threshold, the checks return without raising. -/
theorem validateCore_ok_of (t : Table) (h1 : t.isEmptyDF = false)
    (h2 : ¬ t.missingFrac > 1/10) : ∃ w, validateCore t = .ok w := by
  unfold validateCore
  rw [if_neg (by simp [h1]), if_neg h2]
  split
  · dsimp only
    split
    · exact ⟨_, rfl⟩
    · exact ⟨[], rfl⟩
  · exact ⟨[], rfl⟩

/-- C1: on a table with a non-empty cell grid, validation raises an ERROR
exactly when the full-grid missing fraction exceeds 0.10; an excessive
fraction exits the process and a fraction within the threshold passes,
regardless of how the missing cells are distributed. -/
theorem missing_ratio_gate (t : Table) (hr : 0 < t.nRows) (hc : 0 < t.nCols) :
    ((∃ e, validateCore t = Except.error e) ↔ t.missingFrac > 1/10) ∧
    (t.missingFrac > 1/10 → validate_data (.ok t) = .exit 1) ∧
    (t.missingFrac ≤ 1/10 → ∃ w, validate_data (.ok t) = .passed w) := by
  have hne : t.isEmptyDF = false := by
    unfold Table.isEmptyDF
    rw [decide_eq_false_iff_not]
    push_neg
    omega
  refine ⟨?_, ?_, ?_⟩
  · rw [validateCore_error_iff]
    simp [hne]
  · intro hm
    rw [validate_data_exit_iff, validateCore_error_iff]
    exact Or.inr hm
  · intro hm
    obtain ⟨w, hw⟩ := validateCore_ok_of t hne (not_lt.mpr hm)
    exact ⟨w, (validate_data_passed_iff t w).mpr hw⟩

/-- Witness for C1: `tblGrid` concentrates its missing cells in one of two
columns; its full-grid fraction 0.10 is within the threshold and it passes. -/
theorem missing_ratio_gate_witness :
    0 < tblGrid.nRows ∧ 0 < tblGrid.nCols ∧ tblGrid.missingFrac ≤ 1/10 ∧
    ∃ w, validate_data (.ok tblGrid) = .passed w := by
  have h1 : 0 < tblGrid.nRows := by decide
  have h2 : 0 < tblGrid.nCols := by decide
  have h3 : tblGrid.missingFrac ≤ 1/10 :=
    le_of_not_lt fun hgt =>
      absurd ((Table.missingFrac_gt_tenth_iff tblGrid (by decide)).mp hgt) (by decide)
  exact ⟨h1, h2, h3, (missing_ratio_gate tblGrid h1 h2).2.2 h3⟩

/-- C5: a zero-row table fails immediately with the emptiness ERROR, whatever
its column count, and the raised error is the emptiness one (no later check
ran); the process exits nonzero. -/
theorem empty_table_always_fails (t : Table) (h : t.nRows = 0) :
    validateCore t = .error "Data file is empty" ∧
    validate_data (.ok t) = .exit 1 := by
  have he : t.isEmptyDF = true := by
    unfold Table.isEmptyDF
    rw [decide_eq_true_iff]
    exact Or.inl h
  have hcore : validateCore t = .error "Data file is empty" := by
    unfold validateCore
    rw [if_pos he]
  exact ⟨hcore, (validate_data_exit_iff t).mpr ⟨_, hcore⟩⟩

/-- Witness for C5: the zero-row, three-column table fails. -/
theorem empty_table_always_fails_witness :
    validateCore tblEmpty = .error "Data file is empty" ∧
    validate_data (.ok tblEmpty) = .exit 1 :=
  empty_table_always_fails tblEmpty rfl

/-- C4: a table that passes the emptiness and missing-fraction checks and whose
`id` column repeats earlier values in exactly `N > 0` rows passes validation
with a single WARNING diagnostic reporting the count `N`. -/
theorem duplicate_ids_warning_passes (t : Table) (N : Nat)
    (hr : 0 < t.nRows) (hc : 0 < t.nCols) (hm : t.missingFrac ≤ 1/10)
    (hid : t.hasCol "id" = true)
    (hN : dupCount (t.column "id") = N) (hpos : 0 < N) :
    validate_data (.ok t) =
      .passed ["Warning: Found " ++ toString N ++ " duplicate IDs"] := by
  have hne : t.isEmptyDF = false := by
    unfold Table.isEmptyDF
    rw [decide_eq_false_iff_not]
    push_neg
    omega
  rw [validate_data_passed_iff]
  unfold validateCore
  rw [if_neg (by simp [hne]), if_neg (not_lt.mpr hm), if_pos hid]
  dsimp only
  rw [hN, if_pos hpos]

/-- Witness for C4: `tblDup` has one duplicate id and passes with the WARNING
reporting the count 1. -/
theorem duplicate_ids_warning_passes_witness :
    validate_data (.ok tblDup) =
      .passed ["Warning: Found " ++ toString 1 ++ " duplicate IDs"] :=
  duplicate_ids_warning_passes tblDup 1 (by decide) (by decide)
    (le_of_not_lt fun hgt =>
      absurd ((Table.missingFrac_gt_tenth_iff tblDup (by decide)).mp hgt) (by decide))
    (by decide) (by decide) (by decide)

/-- C2: every failure (unreadable/malformed input, or a check that raised) is
caught inside `validate_data` and becomes process exit 1; no exception escapes
(the outcome is always exit or pass); a success whose only diagnostics are
WARNINGs returns normally instead of terminating. -/
theorem validate_catches_all_failures :
    (∀ e : String, validate_data (.error e) = .exit 1) ∧
    (∀ (t : Table) (e : String), validateCore t = .error e →
      validate_data (.ok t) = .exit 1) ∧
    (∀ (t : Table) (w : List String), validateCore t = .ok w →
      validate_data (.ok t) = .passed w) ∧
    (∀ r : Except String Table,
      validate_data r = .exit 1 ∨ ∃ w, validate_data r = .passed w) := by
  refine ⟨fun e => rfl, ?_, ?_, ?_⟩
  · intro t e he
    rw [validate_data_exit_iff]
    exact ⟨e, he⟩
  · intro t w hw
    exact (validate_data_passed_iff t w).mpr hw
  · intro r
    cases r with
    | error e => exact Or.inl rfl
    | ok t =>
      cases h : validateCore t with
      | error e => exact Or.inl ((validate_data_exit_iff t).mpr ⟨e, h⟩)
      | ok w => exact Or.inr ⟨w, (validate_data_passed_iff t w).mpr h⟩

/-- Witness for C2: an unreadable file exits 1, a table with 20% missing cells
exits 1, and a table whose only diagnostic is the duplicate-id WARNING passes. -/
theorem validate_catches_all_failures_witness :
    validate_data (.error "No such file or directory") = .exit 1 ∧
    validate_data (.ok tblTooMissing) = .exit 1 ∧
    validate_data (.ok tblDup) =
      .passed ["Warning: Found " ++ toString 1 ++ " duplicate IDs"] := by
  have hmiss : validateCore tblTooMissing = .error "Too many missing values" := by
    unfold validateCore
    rw [if_neg (by decide),
      if_pos ((Table.missingFrac_gt_tenth_iff tblTooMissing (by decide)).mpr (by decide))]
  have hdup : validateCore tblDup =
      .ok ["Warning: Found " ++ toString 1 ++ " duplicate IDs"] := by
    unfold validateCore
    rw [if_neg (by decide),
      if_neg fun hgt =>
        absurd ((Table.missingFrac_gt_tenth_iff tblDup (by decide)).mp hgt) (by decide)]
    rfl
  exact ⟨validate_catches_all_failures.1 "No such file or directory",
    validate_catches_all_failures.2.1 tblTooMissing "Too many missing values" hmiss,
    validate_catches_all_failures.2.2.1 tblDup _ hdup⟩

namespace Table

/-- Assignment `setCol` preserves distinctness of column names. -/
theorem nodup_colNames_setCol (t : Table) (name : String) (vals : List Cell)
    (h : t.colNames.Nodup) : (t.setCol name vals).colNames.Nodup := by
  rw [colNames_setCol]
  split
  case isTrue hc => exact h
  case isFalse hc =>
    rw [List.nodup_append]
    refine ⟨h, List.nodup_singleton name, ?_⟩
    intro a ha hb
    rw [List.mem_singleton] at hb
    subst hb
    exact hc ((hasCol_iff_mem_colNames t a).mpr ha)

end Table

/-- The transformer `process_data` does not change the number of rows. -/
theorem nRows_process_data (t : Table) (ts : String) :
    (process_data t ts).nRows = t.nRows := by
  unfold process_data
  dsimp only
  rw [Table.nRows_setCol]
  split
  · rw [Table.nRows_setCol, Table.nRows_setCol]
  · rw [Table.nRows_setCol]

/-- The transformer `process_data` preserves distinctness of column names. -/
theorem nodup_colNames_process_data (t : Table) (ts : String)
    (h : t.colNames.Nodup) : (process_data t ts).colNames.Nodup := by
  unfold process_data
  dsimp only
  apply Table.nodup_colNames_setCol
  split
  · exact Table.nodup_colNames_setCol _ _ _ (Table.nodup_colNames_setCol _ _ _ h)
  · exact Table.nodup_colNames_setCol _ _ _ h

/-- The output of `process_data` always carries `row_number` and
`processed_date` columns. -/
theorem hasCol_process_data_derived (t : Table) (ts : String) :
    (process_data t ts).hasCol "row_number" = true ∧
    (process_data t ts).hasCol "processed_date" = true := by
  unfold process_data
  dsimp only
  constructor
  · rw [Table.hasCol_setCol]
    simp
  · rw [Table.hasCol_setCol]
    split
    · rw [Table.hasCol_setCol, Table.hasCol_setCol]
      simp
    · rw [Table.hasCol_setCol]
      simp

/-- Any column other than the three derived ones is untouched by
`process_data`. -/
theorem column_process_data_ne (t : Table) (ts : String) (c : String)
    (h1 : c ≠ "processed_date") (h2 : c ≠ "value_category") (h3 : c ≠ "row_number") :
    (process_data t ts).column c = t.column c := by
  unfold process_data
  dsimp only
  rw [Table.column_setCol_ne _ _ _ _ h3]
  split
  · rw [Table.column_setCol_ne _ _ _ _ h2, Table.column_setCol_ne _ _ _ _ h1]
  · rw [Table.column_setCol_ne _ _ _ _ h1]

/-- The `row_number` column written by `process_data` is `1..n` in row order. -/
theorem column_process_data_rowNumber (t : Table) (ts : String) :
    (process_data t ts).column "row_number" =
      (List.range t.nRows).map (fun i : Nat => some (.num ((i : ℚ) + 1))) := by
  unfold process_data
  dsimp only
  rw [Table.column_setCol_self]
  split
  · rw [Table.nRows_setCol, Table.nRows_setCol]
  · rw [Table.nRows_setCol]

/-- The `value_category` column written by `process_data` is the categorizer
mapped over the input `value` column. -/
theorem column_process_data_valueCategory (t : Table) (ts : String)
    (hv : t.hasCol "value" = true) :
    (process_data t ts).column "value_category" =
      (t.column "value").map (fun c => some (.str (categorize c))) := by
  unfold process_data
  dsimp only
  have hv1 : (t.setCol "processed_date"
      (List.replicate t.nRows (some (.str ts)))).hasCol "value" = true := by
    rw [Table.hasCol_setCol, hv]
    simp
  rw [Table.column_setCol_ne _ _ _ _ (by decide), if_pos hv1, Table.column_setCol_self,
    Table.column_setCol_ne _ _ _ _ (by decide)]

/-- Characterization of the `value_category` lambda on a numeric value: the
two comparisons are strict, so 200 falls to "medium" and 100 to "low". -/
theorem categorize_num (v : ℚ) :
    (categorize (some (.num v)) = "high" ↔ 200 < v) ∧
    (categorize (some (.num v)) = "medium" ↔ 100 < v ∧ v ≤ 200) ∧
    (categorize (some (.num v)) = "low" ↔ v ≤ 100) := by
  unfold categorize cellGT
  by_cases h200 : (200:ℚ) < v
  · rw [if_pos (by simpa using h200)]
    refine ⟨iff_of_true rfl h200, ?_, ?_⟩
    · exact iff_of_false (by decide) (fun hc => absurd h200 (not_lt.mpr hc.2))
    · exact iff_of_false (by decide)
        (fun hc => absurd (lt_trans (by norm_num : (100:ℚ) < 200) h200) (not_lt.mpr hc))
  · rw [if_neg (by simpa using h200)]
    by_cases h100 : (100:ℚ) < v
    · rw [if_pos (by simpa using h100)]
      exact ⟨iff_of_false (by decide) h200,
        iff_of_true rfl ⟨h100, not_lt.mp h200⟩,
        iff_of_false (by decide) (not_le.mpr h100)⟩
    · rw [if_neg (by simpa using h100)]
      exact ⟨iff_of_false (by decide) h200,
        iff_of_false (by decide) (fun hc => h100 hc.1),
        iff_of_true rfl (not_lt.mp h100)⟩

/-- C3: `process_data` categorizes each non-missing numeric `value` entry
with strict thresholds — "high" iff v > 200, "medium" iff 100 < v ≤ 200,
"low" iff v ≤ 100 — and on the boundary column [100, 101, 200, 201] it
writes [low, medium, medium, high]. -/
theorem transform_value_thresholds :
    (∀ (t : Table) (ts : String), t.hasCol "value" = true → ∀ (i : Nat) (v : ℚ),
      (t.column "value")[i]? = some (some (.num v)) →
      ∃ c : String,
        ((process_data t ts).column "value_category")[i]? = some (some (.str c)) ∧
        (c = "high" ↔ 200 < v) ∧ (c = "medium" ↔ 100 < v ∧ v ≤ 200) ∧
        (c = "low" ↔ v ≤ 100)) ∧
    (process_data tblBound "T").column "value_category" =
      [some (.str "low"), some (.str "medium"), some (.str "medium"), some (.str "high")] := by
  constructor
  · intro t ts hv i v hi
    rw [column_process_data_valueCategory t ts hv, List.getElem?_map, hi]
    exact ⟨categorize (some (.num v)), rfl, categorize_num v⟩
  · rw [column_process_data_valueCategory tblBound "T" (by decide)]
    decide

/-- Witness for C3 at the boundary table: entry 100 at index 0. -/
theorem transform_value_thresholds_witness :
    ∃ c : String,
      ((process_data tblBound "T").column "value_category")[0]? = some (some (.str c)) ∧
      (c = "high" ↔ (200:ℚ) < 100) ∧ (c = "medium" ↔ (100:ℚ) < 100 ∧ (100:ℚ) ≤ 200) ∧
      (c = "low" ↔ (100:ℚ) ≤ 100) :=
  transform_value_thresholds.1 tblBound "T" (by decide) 0 100 (by decide)

/-- C10: a missing `value` entry falls through both threshold comparisons
(`NaN > c` is false) and is categorized "low" rather than left missing. -/
theorem transform_missing_value_low (t : Table) (ts : String)
    (hv : t.hasCol "value" = true) (i : Nat)
    (hi : (t.column "value")[i]? = some none) :
    ((process_data t ts).column "value_category")[i]? = some (some (.str "low")) := by
  rw [column_process_data_valueCategory t ts hv, List.getElem?_map, hi]
  rfl

/-- Witness for C10: the missing entry of `tblValMiss` is categorized "low". -/
theorem transform_missing_value_low_witness :
    ((process_data tblValMiss "T").column "value_category")[0]? =
      some (some (.str "low")) :=
  transform_missing_value_low tblValMiss "T" (by decide) 0 (by decide)

/-- Counterexample to C6 as stated: `process_data` overwrites a pre-existing
`processed_date` column, so not every pre-existing column keeps its values. -/
theorem transform_overwrites_preexisting_derived :
    (process_data tblPre "2024-01-01T00:00:00").column "processed_date" ≠
      tblPre.column "processed_date" := by decide

/-- C6 (amended): `process_data` keeps the number of rows and the row order,
keeps every pre-existing column other than the derived `processed_date`,
`value_category` and `row_number` columns unchanged, and writes `row_number`
as the consecutive integers 1..n in the table's current row order. -/
theorem transform_frame (t : Table) (ts : String) :
    (process_data t ts).nRows = t.nRows ∧
    (∀ c : String, c ≠ "processed_date" → c ≠ "value_category" → c ≠ "row_number" →
      (process_data t ts).column c = t.column c) ∧
    (process_data t ts).column "row_number" =
      (List.range t.nRows).map (fun i : Nat => some (.num ((i : ℚ) + 1))) :=
  ⟨nRows_process_data t ts,
   fun c h1 h2 h3 => column_process_data_ne t ts c h1 h2 h3,
   column_process_data_rowNumber t ts⟩

/-- Witness for C6 at `tblTwo` and its column `x`. -/
theorem transform_frame_witness :
    (process_data tblTwo "T").nRows = tblTwo.nRows ∧
    (process_data tblTwo "T").column "x" = tblTwo.column "x" ∧
    (process_data tblTwo "T").column "row_number" =
      (List.range tblTwo.nRows).map (fun i : Nat => some (.num ((i : ℚ) + 1))) :=
  ⟨(transform_frame tblTwo "T").1,
   (transform_frame tblTwo "T").2.1 "x" (by decide) (by decide) (by decide),
   (transform_frame tblTwo "T").2.2⟩

/-- C7: reapplying `process_data` to its own output overwrites the derived
columns instead of duplicating them — the result has exactly one `row_number`
and one `processed_date` column — and `row_number` is re-assigned 1..n. -/
theorem transform_reapply_overwrites (t : Table) (ts ts' : String)
    (h : t.colNames.Nodup) :
    (process_data (process_data t ts) ts').colNames.count "row_number" = 1 ∧
    (process_data (process_data t ts) ts').colNames.count "processed_date" = 1 ∧
    (process_data (process_data t ts) ts').column "row_number" =
      (List.range t.nRows).map (fun i : Nat => some (.num ((i : ℚ) + 1))) := by
  have h2 := nodup_colNames_process_data _ ts' (nodup_colNames_process_data t ts h)
  have hr := (hasCol_process_data_derived (process_data t ts) ts').1
  have hp := (hasCol_process_data_derived (process_data t ts) ts').2
  refine ⟨?_, ?_, ?_⟩
  · exact List.count_eq_one_of_mem h2 ((Table.hasCol_iff_mem_colNames _ _).mp hr)
  · exact List.count_eq_one_of_mem h2 ((Table.hasCol_iff_mem_colNames _ _).mp hp)
  · rw [column_process_data_rowNumber, nRows_process_data]

/-- Witness for C7 at `tblTwo`. -/
theorem transform_reapply_overwrites_witness :
    (process_data (process_data tblTwo "T1") "T2").colNames.count "row_number" = 1 ∧
    (process_data (process_data tblTwo "T1") "T2").colNames.count "processed_date" = 1 ∧
    (process_data (process_data tblTwo "T1") "T2").column "row_number" =
      (List.range tblTwo.nRows).map (fun i : Nat => some (.num ((i : ℚ) + 1))) :=
  transform_reapply_overwrites tblTwo "T1" "T2" (by decide)

/-- A nonempty rational list has a `max?` that is a member and an upper bound. -/
theorem max?_spec (l : List ℚ) (h : l ≠ []) :
    ∃ m, l.max? = some m ∧ m ∈ l ∧ ∀ x ∈ l, x ≤ m := by
  cases hm : l.max? with
  | none => exact absurd (List.max?_eq_none_iff.mp hm) h
  | some m =>
    have : Std.Antisymm (α := ℚ) (· ≤ ·) := ⟨fun h1 h2 => le_antisymm h1 h2⟩
    rw [List.max?_eq_some_iff] at hm
    · exact ⟨m, rfl, hm.1, hm.2⟩
    all_goals simp [le_total]

/-- A nonempty rational list has a `min?` that is a member and a lower bound. -/
theorem min?_spec (l : List ℚ) (h : l ≠ []) :
    ∃ m, l.min? = some m ∧ m ∈ l ∧ ∀ x ∈ l, m ≤ x := by
  cases hm : l.min? with
  | none => exact absurd (List.min?_eq_none_iff.mp hm) h
  | some m =>
    have : Std.Antisymm (α := ℚ) (· ≤ ·) := ⟨fun h1 h2 => le_antisymm h1 h2⟩
    rw [List.min?_eq_some_iff] at hm
    · exact ⟨m, rfl, hm.1, hm.2⟩
    all_goals simp [le_total]

/-- C8: when a `value` column exists and has at least one non-missing numeric
entry, the report's aggregates are the mean, maximum, minimum and sum of
exactly the non-missing numeric entries; on [100, 200, 150, 300, 250] they are
200, 300, 100 and 1000. -/
theorem report_value_aggregates :
    (∀ (t : Table) (ts : String), t.hasCol "value" = true →
      numVals (t.column "value") ≠ [] →
      (∃ a, (generate_report t ts).average_value = some a ∧
        a * (numVals (t.column "value")).length = (numVals (t.column "value")).sum) ∧
      (∃ m, (generate_report t ts).max_value = some m ∧
        m ∈ numVals (t.column "value") ∧ ∀ x ∈ numVals (t.column "value"), x ≤ m) ∧
      (∃ m, (generate_report t ts).min_value = some m ∧
        m ∈ numVals (t.column "value") ∧ ∀ x ∈ numVals (t.column "value"), m ≤ x) ∧
      (generate_report t ts).total_value = some (numVals (t.column "value")).sum) ∧
    ((generate_report tblVal "T").average_value = some 200 ∧
     (generate_report tblVal "T").max_value = some 300 ∧
     (generate_report tblVal "T").min_value = some 100 ∧
     (generate_report tblVal "T").total_value = some 1000) := by
  constructor
  · intro t ts hv hne
    have hlen : (numVals (t.column "value")).length ≠ 0 :=
      fun h0 => hne (List.length_eq_zero.mp h0)
    refine ⟨?_, ?_, ?_, ?_⟩
    · refine ⟨(numVals (t.column "value")).sum / ((numVals (t.column "value")).length : ℚ),
        ?_, ?_⟩
      · unfold generate_report
        dsimp only
        rw [if_pos hv, if_neg hlen]
      · rw [div_mul_cancel₀]
        exact Nat.cast_ne_zero.mpr hlen
    · obtain ⟨m, hm, hmem, hub⟩ := max?_spec (numVals (t.column "value")) hne
      refine ⟨m, ?_, hmem, hub⟩
      unfold generate_report
      dsimp only
      rw [if_pos hv, hm]
    · obtain ⟨m, hm, hmem, hlb⟩ := min?_spec (numVals (t.column "value")) hne
      refine ⟨m, ?_, hmem, hlb⟩
      unfold generate_report
      dsimp only
      rw [if_pos hv, hm]
    · unfold generate_report
      dsimp only
      rw [if_pos hv]
  · have hnv : numVals (tblVal.column "value") = [100, 200, 150, 300, 250] := rfl
    refine ⟨?_, ?_, ?_, ?_⟩
    · show (if tblVal.hasCol "value" = true then
          if (numVals (tblVal.column "value")).length = 0 then none
          else some ((numVals (tblVal.column "value")).sum /
            ((numVals (tblVal.column "value")).length : ℚ))
        else none) = some 200
      rw [if_pos (by decide), if_neg (by decide), hnv]
      norm_num
    · show (if tblVal.hasCol "value" = true then
          (numVals (tblVal.column "value")).max? else none) = some 300
      rw [if_pos (by decide), hnv]
      decide
    · show (if tblVal.hasCol "value" = true then
          (numVals (tblVal.column "value")).min? else none) = some 100
      rw [if_pos (by decide), hnv]
      decide
    · show (if tblVal.hasCol "value" = true then
          some (numVals (tblVal.column "value")).sum else none) = some 1000
      rw [if_pos (by decide), hnv]
      norm_num

/-- Witness for C8 at the five-value table. -/
theorem report_value_aggregates_witness :
    (∃ a, (generate_report tblVal "T").average_value = some a ∧
      a * (numVals (tblVal.column "value")).length = (numVals (tblVal.column "value")).sum) ∧
    (∃ m, (generate_report tblVal "T").max_value = some m ∧
      m ∈ numVals (tblVal.column "value") ∧ ∀ x ∈ numVals (tblVal.column "value"), x ≤ m) ∧
    (∃ m, (generate_report tblVal "T").min_value = some m ∧
      m ∈ numVals (tblVal.column "value") ∧ ∀ x ∈ numVals (tblVal.column "value"), m ≤ x) ∧
    (generate_report tblVal "T").total_value = some (numVals (tblVal.column "value")).sum :=
  report_value_aggregates.1 tblVal "T" (by decide) (by decide)

/-- Membership in the first-occurrence list is membership in the source. -/
theorem mem_firstOccs : ∀ (l : List Val) (v : Val), v ∈ firstOccs l ↔ v ∈ l
  | [], v => by simp [firstOccs]
  | w :: rest, v => by
    unfold firstOccs
    by_cases hv : v = w
    · subst hv
      simp
    · simp only [List.mem_cons, List.mem_filter, mem_firstOccs rest v, hv]
      simp [hv]

/-- Looking up a present key in a key-to-image association built by `map`. -/
theorem find_map_pairs (g : Val → Nat) :
    ∀ (occs : List Val) (v : Val), v ∈ occs →
      (occs.map (fun u => (u, g u))).find? (fun p => p.1 = v) = some (v, g v)
  | w :: rest, v, hmem => by
    by_cases h : w = v
    · subst h
      rw [List.map_cons, List.find?_cons_of_pos _ (by simp)]
    · rw [List.map_cons, List.find?_cons_of_neg _ (by simpa using h)]
      exact find_map_pairs g rest v
        (List.mem_of_ne_of_mem (fun hv => h hv.symm) hmem)

/-- Looking up an absent key in a key-to-image association built by `map`. -/
theorem find_map_pairs_none (g : Val → Nat) (occs : List Val) (v : Val)
    (hmem : v ∉ occs) :
    (occs.map (fun u => (u, g u))).find? (fun p => p.1 = v) = none := by
  rw [List.find?_eq_none]
  rintro p hp
  rw [List.mem_map] at hp
  obtain ⟨u, hu, rfl⟩ := hp
  simp only [decide_eq_true_eq]
  intro he
  exact hmem (he ▸ hu)

/-- C9: when a `status` column exists, the report's breakdown maps exactly the
distinct observed status values to their occurrence counts and
`active_records` is the number of rows whose status is exactly "active"
(0 when absent); on [active, active, inactive, active, pending] this is
active_records = 3 and {active: 3, inactive: 1, pending: 1}. -/
theorem report_status_breakdown :
    (∀ (t : Table) (ts : String), t.hasCol "status" = true →
      (∃ m, (generate_report t ts).status_breakdown = some m ∧
        ∀ (v : Val) (n : Nat), (v, n) ∈ m ↔
          (some v ∈ t.column "status" ∧ n = (t.column "status").count (some v))) ∧
      (generate_report t ts).active_records =
        some ((t.column "status").count (some (.str "active")))) ∧
    ((generate_report tblStat "T").active_records = some 3 ∧
     (generate_report tblStat "T").status_breakdown =
       some [(.str "active", 3), (.str "inactive", 1), (.str "pending", 1)]) := by
  constructor
  · intro t ts hs
    have hmem_occs : ∀ v : Val,
        v ∈ firstOccs ((t.column "status").filterMap id) ↔ some v ∈ t.column "status" := by
      intro v
      rw [mem_firstOccs, List.mem_filterMap]
      constructor
      · rintro ⟨c, hc, hcv⟩
        cases c with
        | none => cases hcv
        | some u => cases hcv; exact hc
      · intro hv
        exact ⟨some v, hv, rfl⟩
    constructor
    · refine ⟨valueCountsList (t.column "status"), ?_, ?_⟩
      · unfold generate_report
        dsimp only
        rw [if_pos hs]
      · intro v n
        unfold valueCountsList
        rw [List.mem_map]
        constructor
        · rintro ⟨u, hu, huv⟩
          cases huv
          exact ⟨(hmem_occs v).mp hu, rfl⟩
        · rintro ⟨hv, hn⟩
          subst hn
          exact ⟨v, (hmem_occs v).mpr hv, rfl⟩
    · unfold generate_report
      dsimp only
      rw [if_pos hs, Option.map_some']
      congr 1
      unfold valueCountsList
      by_cases hmem : some (Val.str "active") ∈ t.column "status"
      · rw [find_map_pairs (fun u => (t.column "status").count (some u)) _ _
          ((hmem_occs (Val.str "active")).mpr hmem)]
        rfl
      · rw [find_map_pairs_none (fun u => (t.column "status").count (some u)) _ _
          (fun hin => hmem ((hmem_occs (Val.str "active")).mp hin))]
        rw [List.count_eq_zero.mpr hmem]
        rfl
  · constructor
    · decide
    · decide

/-- Witness for C9 at the five-status table. -/
theorem report_status_breakdown_witness :
    (∃ m, (generate_report tblStat "T").status_breakdown = some m ∧
      ∀ (v : Val) (n : Nat), (v, n) ∈ m ↔
        (some v ∈ tblStat.column "status" ∧
          n = (tblStat.column "status").count (some v))) ∧
    (generate_report tblStat "T").active_records =
      some ((tblStat.column "status").count (some (.str "active"))) :=
  report_status_breakdown.1 tblStat "T" (by decide)
